import Mathlib

/-!
# Verification of the Chatten COMPUTE token contract

Shallow embedding of `src/contracts/chatten_token.py` (a Neo N3 NEP-11
divisible token with a fixed-fee buy/sell swap against a pooled GAS reserve).

Modelling conventions:

* The contract's key-value store is split by storage prefix into the record
  fields of `State`.  A stored balance lives under the byte key
  `PREFIX_BALANCE ++ owner ++ token_id` where `owner` is exactly 20 bytes, so
  balance keys are in bijection with pairs `(owner, token_id)`; the field
  `State.balance` is indexed by such pairs, with `none` meaning the key is
  absent from storage (`get_int` of an absent key returns 0).  The aggregate
  read `balanceOf` reads the key `PREFIX_BALANCE ++ owner`, which corresponds
  to the pair `(owner, [])`.
* `put_int`-only cells that are never deleted (supplies, prices, total supply,
  reserve, paused flag) are modelled as total functions / plain values, with 0
  as the absent default, exactly matching `get_int`.
* Bytes are `List Nat`; integers are unbounded `Int`, as on the Neo VM.
  Python's floor division `//` is modelled by `Int` division `/`
  (truncation); every division in the contract has non-negative operands at
  the point it executes, where the two agree.
* Each public method is a function `... → State → Option (α × State)`.
  `none` models a VM FAULT (a failed `assert`): the transaction is reverted
  and none of the method's storage writes persist.  `some (r, s')` models a
  completed invocation returning `r` with post-storage `s'`.
* The host runtime context of an invocation is `Ctx`: the calling script hash
  (`calling_script_hash`), the witness oracle (`check_witness`), whether the
  external `GasToken.transfer` call reports success (`gasOk`), and whether the
  `onNEP11Payment` callback on a contract recipient of `transfer` completes
  without aborting (`recvOk`).  The hash `CryptoLib.sha256` is an external
  primitive and is passed as a function parameter `sha256` to the methods
  that call it.
-/

namespace ChattenToken

/-- Byte strings (storage keys, token ids, model ids). -/
abbrev Bytes := List Nat

/-- A 20-byte script hash / address (`UInt160`). -/
abbrev Addr := Bytes

/-- `ONE_TOKEN = 100_000_000` from the source (8 decimals). -/
def ONE_TOKEN : Int := 100000000

/-- `GAS_HASH` from the source: script hash of the GAS token contract. -/
def GAS_HASH : Bytes :=
  [0xcf, 0x76, 0xe2, 0x8b, 0xd0, 0x06, 0x2c, 0x4a, 0x47, 0x8e,
   0xe3, 0x55, 0x61, 0x01, 0x13, 0x19, 0xf3, 0xcf, 0xa4, 0xd2]

/-- The contract's persistent storage, split by storage prefix. -/
structure State where
  /-- `PREFIX_BALANCE ++ owner ++ token_id ↦ value`; `none` = key absent. -/
  balance : Addr × Bytes → Option Int
  /-- `PREFIX_SUPPLY ++ token_id ↦ value` (`get_int` default 0). -/
  supply : Bytes → Int
  /-- `PREFIX_TOTAL_SUPPLY ↦ value`. -/
  totalSupply : Int
  /-- `PREFIX_PRICE ++ token_id ↦ value` (`get_int` default 0). -/
  price : Bytes → Int
  /-- `PREFIX_GAS_RESERVE ↦ value`. -/
  gasReserve : Int
  /-- `PREFIX_PAUSED ↦ value`; stored as 0/1, read as `get_int == 0`. -/
  paused : Bool
  /-- `PREFIX_ADMIN ↦ deployer`, written once at `_deploy`. -/
  admin : Addr
  /-- `PREFIX_ORACLE ++ addr`: present with value 1 iff `true`. -/
  oracle : Addr → Bool
  /-- `PREFIX_MINTER ++ addr`: present with value 1 iff `true`. -/
  minter : Addr → Bool

/-- The host runtime context of one public invocation. -/
structure Ctx where
  /-- `calling_script_hash`. -/
  caller : Addr
  /-- `check_witness`: which identities authorized the current transaction. -/
  witness : Addr → Bool
  /-- Result reported by the external `GasToken.transfer` call, if reached. -/
  gasOk : Bool
  /-- Whether the `onNEP11Payment` callback on a contract recipient completes
  without aborting (`true` also covers a non-contract recipient). -/
  recvOk : Bool

/-- `get_int(PREFIX_BALANCE + owner + token_id)`: stored balance or 0. -/
def State.balGet (s : State) (o : Addr) (t : Bytes) : Int :=
  (s.balance (o, t)).getD 0

/-- `_deploy` with `update = false`: admin = deployer, paused = 0,
total supply = 0, reserve = 0, deployer granted oracle and minter. -/
def initState (deployer : Addr) : State where
  balance := fun _ => none
  supply := fun _ => 0
  totalSupply := 0
  price := fun _ => 0
  gasReserve := 0
  paused := false
  admin := deployer
  oracle := fun a => decide (a = deployer)
  minter := fun a => decide (a = deployer)

/-- The storage writes of a successful `transfer` (lines 152-165 of the
source): debit `from_addr`, deleting the key when the balance reaches 0,
then credit `to_addr` reading the already-updated store. -/
def transferApply (from_addr to_addr : Addr) (amount : Int) (token_id : Bytes)
    (s : State) : State :=
  let from_bal := s.balGet from_addr token_id
  let new_from := from_bal - amount
  let bal1 :=
    Function.update s.balance (from_addr, token_id)
      (if 0 < new_from then some new_from else none)
  let s1 : State := { s with balance := bal1 }
  let to_bal := s1.balGet to_addr token_id
  let bal2 := Function.update s1.balance (to_addr, token_id) (some (to_bal + amount))
  { s1 with balance := bal2 }

/-- `transfer(from_addr, to_addr, amount, token_id, data)`.  Returns `false`
without any write when the sender's balance is insufficient; aborts when an
assert fails or when the recipient's `onNEP11Payment` callback aborts. -/
def transfer (ctx : Ctx) (from_addr to_addr : Addr) (amount : Int)
    (token_id : Bytes) (s : State) : Option (Bool × State) :=
  if from_addr.length = 20 ∧ to_addr.length = 20 then
    if 0 < amount then
      if s.paused = false then
        if ctx.witness from_addr then
          if s.balGet from_addr token_id < amount then some (false, s)
          else
            if ctx.recvOk then
              some (true, transferApply from_addr to_addr amount token_id s)
            else none
        else none
      else none
    else none
  else none

/-- `actual = amount * quality // 100` from `mint`. -/
def mintActual (amount quality : Int) : Int := amount * quality / 100

/-- The storage writes of a successful `mint` (lines 193-205): credit the
recipient's balance and bump the asset and total supply by `actual`. -/
def mintApply (sha256 : Bytes → Bytes) (to_addr : Addr) (model_id : Bytes)
    (amount quality : Int) (s : State) : State :=
  let token_id := sha256 model_id
  let actual := mintActual amount quality
  let bal := s.balGet to_addr token_id
  let bal1 := Function.update s.balance (to_addr, token_id) (some (bal + actual))
  let s1 : State := { s with balance := bal1 }
  let sup1 := Function.update s1.supply token_id (s1.supply token_id + actual)
  let s2 : State := { s1 with supply := sup1 }
  { s2 with totalSupply := s2.totalSupply + actual }

/-- `mint(to_addr, model_id, amount, quality)`: minter only, quality in [50, 100],
credits `amount * quality // 100`. -/
def mint (sha256 : Bytes → Bytes) (ctx : Ctx) (to_addr : Addr) (model_id : Bytes)
    (amount quality : Int) (s : State) : Option (Bool × State) :=
  if s.paused = false then
    if to_addr.length = 20 then
      if 0 < model_id.length then
        if 0 < amount then
          if 50 ≤ quality ∧ quality ≤ 100 then
            if s.minter ctx.caller then
              if 0 < mintActual amount quality then
                some (true, mintApply sha256 to_addr model_id amount quality s)
              else none
            else none
          else none
        else none
      else none
    else none
  else none

/-- The storage writes of a successful `burn` (lines 217-233): debit the
owner's balance (deleting the key at 0) and decrease asset and total supply. -/
def burnApply (owner : Addr) (token_id : Bytes) (amount : Int)
    (s : State) : State :=
  let current := s.balGet owner token_id
  let new_bal := current - amount
  let bal1 :=
    Function.update s.balance (owner, token_id)
      (if 0 < new_bal then some new_bal else none)
  let s1 : State := { s with balance := bal1 }
  let sup1 := Function.update s1.supply token_id (s1.supply token_id - amount)
  let s2 : State := { s1 with supply := sup1 }
  { s2 with totalSupply := s2.totalSupply - amount }

/-- `burn(owner, token_id, amount)`: witness of owner required; returns
`false` without any write when the balance is insufficient. -/
def burn (ctx : Ctx) (owner : Addr) (token_id : Bytes) (amount : Int)
    (s : State) : Option (Bool × State) :=
  if s.paused = false then
    if ctx.witness owner then
      if 0 < amount then
        if s.balGet owner token_id < amount then some (false, s)
        else some (true, burnApply owner token_id amount s)
      else none
    else none
  else none

/-- `fee = gas_amount * 3 // 1000` from `buy_compute`. -/
def buyFee (gas_amount : Int) : Int := gas_amount * 3 / 1000

/-- `net = gas_amount - fee` from `buy_compute`. -/
def buyNet (gas_amount : Int) : Int := gas_amount - buyFee gas_amount

/-- `compute = net * ONE_TOKEN // price` from `buy_compute`. -/
def buyMinted (sha256 : Bytes → Bytes) (model_id : Bytes) (gas_amount : Int)
    (s : State) : Int :=
  buyNet gas_amount * ONE_TOKEN / s.price (sha256 model_id)

/-- The storage writes of a successful `buy_compute` (lines 259-273): credit
the buyer, bump asset and total supply by the minted amount, and add the full
`gas_amount` to the reserve. -/
def buyApply (sha256 : Bytes → Bytes) (buyer : Addr) (model_id : Bytes)
    (gas_amount : Int) (s : State) : State :=
  let token_id := sha256 model_id
  let compute := buyMinted sha256 model_id gas_amount s
  let bal := s.balGet buyer token_id
  let bal1 := Function.update s.balance (buyer, token_id) (some (bal + compute))
  let s1 : State := { s with balance := bal1 }
  let sup1 := Function.update s1.supply token_id (s1.supply token_id + compute)
  let s2 : State := { s1 with supply := sup1 }
  let s3 : State := { s2 with totalSupply := s2.totalSupply + compute }
  { s3 with gasReserve := s3.gasReserve + gas_amount }

/-- `buy_compute(buyer, model_id, gas_amount)`: swap reserve units for newly
minted compute tokens at the stored price, 0.3 percent fee rounded down. -/
def buy_compute (sha256 : Bytes → Bytes) (ctx : Ctx) (buyer : Addr)
    (model_id : Bytes) (gas_amount : Int) (s : State) : Option (Int × State) :=
  if s.paused = false then
    if buyer.length = 20 then
      if 0 < model_id.length then
        if 1000 < gas_amount then
          if 0 < s.price (sha256 model_id) then
            if 0 < buyMinted sha256 model_id gas_amount s then
              some (buyMinted sha256 model_id gas_amount s,
                buyApply sha256 buyer model_id gas_amount s)
            else none
          else none
        else none
      else none
    else none
  else none

/-- `gross = amount * price // ONE_TOKEN` from `sell_compute`. -/
def sellGross (sha256 : Bytes → Bytes) (model_id : Bytes) (amount : Int)
    (s : State) : Int :=
  amount * s.price (sha256 model_id) / ONE_TOKEN

/-- `fee = gross * 3 // 1000` from `sell_compute`. -/
def sellFee (sha256 : Bytes → Bytes) (model_id : Bytes) (amount : Int)
    (s : State) : Int :=
  sellGross sha256 model_id amount s * 3 / 1000

/-- `net = gross - fee` from `sell_compute`: the payout. -/
def sellNet (sha256 : Bytes → Bytes) (model_id : Bytes) (amount : Int)
    (s : State) : Int :=
  sellGross sha256 model_id amount s - sellFee sha256 model_id amount s

/-- The storage writes of a successful `sell_compute` (lines 303-317): debit
the seller (deleting the key at 0), decrease asset and total supply by
`amount`, and decrease the reserve by the net payout. -/
def sellApply (sha256 : Bytes → Bytes) (seller : Addr) (model_id : Bytes)
    (amount : Int) (s : State) : State :=
  let token_id := sha256 model_id
  let current := s.balGet seller token_id
  let new_bal := current - amount
  let bal1 :=
    Function.update s.balance (seller, token_id)
      (if 0 < new_bal then some new_bal else none)
  let s1 : State := { s with balance := bal1 }
  let sup1 := Function.update s1.supply token_id (s1.supply token_id - amount)
  let s2 : State := { s1 with supply := sup1 }
  let s3 : State := { s2 with totalSupply := s2.totalSupply - amount }
  { s3 with gasReserve := s3.gasReserve - sellNet sha256 model_id amount s }

/-- `sell_compute(seller, model_id, amount)`: burn compute tokens for a
reserve payout of `gross - fee`; the whole call aborts when the external
`GasToken.transfer` to the seller reports failure. -/
def sell_compute (sha256 : Bytes → Bytes) (ctx : Ctx) (seller : Addr)
    (model_id : Bytes) (amount : Int) (s : State) : Option (Int × State) :=
  if s.paused = false then
    if ctx.witness seller then
      if 0 < model_id.length then
        if 1000 < amount then
          if amount ≤ s.balGet seller (sha256 model_id) then
            if 0 < s.price (sha256 model_id) then
              if 0 < sellNet sha256 model_id amount s then
                if sellNet sha256 model_id amount s ≤ s.gasReserve then
                  if ctx.gasOk then
                    some (sellNet sha256 model_id amount s,
                      sellApply sha256 seller model_id amount s)
                  else none
                else none
              else none
            else none
          else none
        else none
      else none
    else none
  else none

/-- `update_price_oracle(model_id, price_gas)`: oracle only, price positive. -/
def update_price_oracle (sha256 : Bytes → Bytes) (ctx : Ctx)
    (model_id : Bytes) (price_gas : Int) (s : State) : Option (Bool × State) :=
  if s.paused = false then
    if 0 < model_id.length then
      if 0 < price_gas then
        if s.oracle ctx.caller then
          some (true,
            { s with price := Function.update s.price (sha256 model_id) price_gas })
        else none
      else none
    else none
  else none

/-- `onNEP17Payment(from_addr, amount, data)`: only the GAS contract may
call; credits the reserve by the deposited amount.  No pause check. -/
def onNEP17Payment (ctx : Ctx) (from_addr : Addr) (amount : Int)
    (s : State) : Option (Unit × State) :=
  if ctx.caller = GAS_HASH then
    some ((), { s with gasReserve := s.gasReserve + amount })
  else none

/-- `pause()`: admin only.  No pause check of its own. -/
def pause (ctx : Ctx) (s : State) : Option (Bool × State) :=
  if ctx.caller = s.admin then some (true, { s with paused := true }) else none

/-- `resume()`: admin only. -/
def resume (ctx : Ctx) (s : State) : Option (Bool × State) :=
  if ctx.caller = s.admin then some (true, { s with paused := false }) else none

/-- `set_oracle(addr, auth)`: admin only; put 1 or delete the oracle key. -/
def set_oracle (ctx : Ctx) (addr : Addr) (auth : Bool) (s : State) :
    Option (Bool × State) :=
  if ctx.caller = s.admin then
    if auth then some (true, { s with oracle := Function.update s.oracle addr true })
    else some (true, { s with oracle := Function.update s.oracle addr false })
  else none

/-- `set_minter(addr, auth)`: admin only; put 1 or delete the minter key. -/
def set_minter (ctx : Ctx) (addr : Addr) (auth : Bool) (s : State) :
    Option (Bool × State) :=
  if ctx.caller = s.admin then
    if auth then some (true, { s with minter := Function.update s.minter addr true })
    else some (true, { s with minter := Function.update s.minter addr false })
  else none

/-- `withdraw_gas(to_addr, amount)`: admin only; decreases the reserve and aborts
the whole call when the external `GasToken.transfer` reports failure.
Note: no pause check appears in the source. -/
def withdraw_gas (ctx : Ctx) (to_addr : Addr) (amount : Int) (s : State) :
    Option (Bool × State) :=
  if ctx.caller = s.admin then
    if to_addr.length = 20 then
      if 0 < amount then
        if amount ≤ s.gasReserve then
          if ctx.gasOk then
            some (true, { s with gasReserve := s.gasReserve - amount })
          else none
        else none
      else none
    else none
  else none

/-- `balanceOf(owner)`: reads the key `PREFIX_BALANCE ++ owner`, i.e. the
balance entry with the empty token-id suffix. -/
def balanceOf (owner : Addr) (s : State) : Option Int :=
  if owner.length = 20 then some ((s.balance (owner, [])).getD 0) else none

/-! ## Precondition predicates and characterization lemmas

For each mutating method, the conjunction of its `assert` guards, and a lemma
rewriting the method into the form
`if preconditions then some (result, writes) else none`. -/

/-- The `assert` guards of `transfer` (its balance check is not an assert:
failing it returns `False` without aborting). -/
abbrev transferPre (ctx : Ctx) (from_addr to_addr : Addr) (amount : Int)
    (s : State) : Prop :=
  (from_addr.length = 20 ∧ to_addr.length = 20) ∧ 0 < amount ∧
    s.paused = false ∧ ctx.witness from_addr = true

lemma transfer_eq (ctx : Ctx) (from_addr to_addr : Addr) (amount : Int)
    (token_id : Bytes) (s : State) :
    transfer ctx from_addr to_addr amount token_id s =
      if transferPre ctx from_addr to_addr amount s then
        if s.balGet from_addr token_id < amount then some (false, s)
        else if ctx.recvOk = true then
          some (true, transferApply from_addr to_addr amount token_id s)
        else none
      else none := by
  unfold transfer transferPre
  split_ifs <;> first | rfl | tauto

/-- The `assert` guards of `mint`. -/
abbrev mintPre (ctx : Ctx) (to_addr : Addr) (model_id : Bytes)
    (amount quality : Int) (s : State) : Prop :=
  s.paused = false ∧ to_addr.length = 20 ∧ 0 < model_id.length ∧ 0 < amount ∧
    (50 ≤ quality ∧ quality ≤ 100) ∧ s.minter ctx.caller = true ∧
    0 < mintActual amount quality

lemma mint_eq (sha256 : Bytes → Bytes) (ctx : Ctx) (to_addr : Addr)
    (model_id : Bytes) (amount quality : Int) (s : State) :
    mint sha256 ctx to_addr model_id amount quality s =
      if mintPre ctx to_addr model_id amount quality s then
        some (true, mintApply sha256 to_addr model_id amount quality s)
      else none := by
  unfold mint mintPre
  split_ifs <;> first | rfl | tauto

/-- The `assert` guards of `burn`. -/
abbrev burnPre (ctx : Ctx) (owner : Addr) (amount : Int) (s : State) : Prop :=
  s.paused = false ∧ ctx.witness owner = true ∧ 0 < amount

lemma burn_eq (ctx : Ctx) (owner : Addr) (token_id : Bytes) (amount : Int)
    (s : State) :
    burn ctx owner token_id amount s =
      if burnPre ctx owner amount s then
        if s.balGet owner token_id < amount then some (false, s)
        else some (true, burnApply owner token_id amount s)
      else none := by
  unfold burn burnPre
  split_ifs <;> first | rfl | tauto

/-- The `assert` guards of `buy_compute`. -/
abbrev buyPre (sha256 : Bytes → Bytes) (buyer : Addr) (model_id : Bytes)
    (gas_amount : Int) (s : State) : Prop :=
  s.paused = false ∧ buyer.length = 20 ∧ 0 < model_id.length ∧
    1000 < gas_amount ∧ 0 < s.price (sha256 model_id) ∧
    0 < buyMinted sha256 model_id gas_amount s

lemma buy_eq (sha256 : Bytes → Bytes) (ctx : Ctx) (buyer : Addr)
    (model_id : Bytes) (gas_amount : Int) (s : State) :
    buy_compute sha256 ctx buyer model_id gas_amount s =
      if buyPre sha256 buyer model_id gas_amount s then
        some (buyMinted sha256 model_id gas_amount s,
          buyApply sha256 buyer model_id gas_amount s)
      else none := by
  unfold buy_compute buyPre
  split_ifs <;> first | rfl | tauto

/-- The `assert` guards of `sell_compute`, other than the success of the
external `GasToken.transfer`.  These are the preconditions the specification
lists for a sell: not paused, caller authorized as the seller, amount above
the dust bound, sufficient balance, a positive stored price, a positive net
payout, and a sufficient reserve (plus a well-formed, non-empty model id). -/
abbrev sellPre (sha256 : Bytes → Bytes) (ctx : Ctx) (seller : Addr)
    (model_id : Bytes) (amount : Int) (s : State) : Prop :=
  s.paused = false ∧ ctx.witness seller = true ∧ 0 < model_id.length ∧
    1000 < amount ∧ amount ≤ s.balGet seller (sha256 model_id) ∧
    0 < s.price (sha256 model_id) ∧ 0 < sellNet sha256 model_id amount s ∧
    sellNet sha256 model_id amount s ≤ s.gasReserve

lemma sell_eq (sha256 : Bytes → Bytes) (ctx : Ctx) (seller : Addr)
    (model_id : Bytes) (amount : Int) (s : State) :
    sell_compute sha256 ctx seller model_id amount s =
      if sellPre sha256 ctx seller model_id amount s ∧ ctx.gasOk = true then
        some (sellNet sha256 model_id amount s,
          sellApply sha256 seller model_id amount s)
      else none := by
  unfold sell_compute sellPre
  split_ifs <;> first | rfl | tauto

/-- The `assert` guards of `withdraw_gas`, other than the success of the
external `GasToken.transfer`. -/
abbrev withdrawPre (ctx : Ctx) (to_addr : Addr) (amount : Int) (s : State) : Prop :=
  ctx.caller = s.admin ∧ to_addr.length = 20 ∧ 0 < amount ∧
    amount ≤ s.gasReserve

lemma withdraw_gas_eq (ctx : Ctx) (to_addr : Addr) (amount : Int) (s : State) :
    withdraw_gas ctx to_addr amount s =
      if withdrawPre ctx to_addr amount s ∧ ctx.gasOk = true then
        some (true, { s with gasReserve := s.gasReserve - amount })
      else none := by
  unfold withdraw_gas withdrawPre
  split_ifs <;> first | rfl | tauto

/-! ## The transition system

One `Step` per completed public invocation.  An invocation that faults
(`none`) leaves no trace on the chain, so it does not give a step.
A reentrant call made from the `onNEP11Payment` callback of `transfer` runs
after all of `transfer`'s writes are committed, so it is itself a `Step`
from the successor state and needs no separate treatment. -/

/-- One successful public invocation of the contract. -/
inductive Step (sha256 : Bytes → Bytes) : State → State → Prop
  | stepTransfer {s s' : State} (ctx : Ctx) (from_addr to_addr : Addr)
      (amount : Int) (token_id : Bytes) (r : Bool)
      (h : transfer ctx from_addr to_addr amount token_id s = some (r, s')) :
      Step sha256 s s'
  | stepMint {s s' : State} (ctx : Ctx) (to_addr : Addr) (model_id : Bytes)
      (amount quality : Int) (r : Bool)
      (h : mint sha256 ctx to_addr model_id amount quality s = some (r, s')) :
      Step sha256 s s'
  | stepBurn {s s' : State} (ctx : Ctx) (owner : Addr) (token_id : Bytes)
      (amount : Int) (r : Bool)
      (h : burn ctx owner token_id amount s = some (r, s')) :
      Step sha256 s s'
  | stepBuy {s s' : State} (ctx : Ctx) (buyer : Addr) (model_id : Bytes)
      (gas_amount minted : Int)
      (h : buy_compute sha256 ctx buyer model_id gas_amount s = some (minted, s')) :
      Step sha256 s s'
  | stepSell {s s' : State} (ctx : Ctx) (seller : Addr) (model_id : Bytes)
      (amount payout : Int)
      (h : sell_compute sha256 ctx seller model_id amount s = some (payout, s')) :
      Step sha256 s s'
  | stepPrice {s s' : State} (ctx : Ctx) (model_id : Bytes) (price_gas : Int)
      (r : Bool)
      (h : update_price_oracle sha256 ctx model_id price_gas s = some (r, s')) :
      Step sha256 s s'
  | stepPause {s s' : State} (ctx : Ctx) (r : Bool)
      (h : pause ctx s = some (r, s')) : Step sha256 s s'
  | stepResume {s s' : State} (ctx : Ctx) (r : Bool)
      (h : resume ctx s = some (r, s')) : Step sha256 s s'
  | stepSetOracle {s s' : State} (ctx : Ctx) (addr : Addr) (auth : Bool)
      (r : Bool) (h : set_oracle ctx addr auth s = some (r, s')) :
      Step sha256 s s'
  | stepSetMinter {s s' : State} (ctx : Ctx) (addr : Addr) (auth : Bool)
      (r : Bool) (h : set_minter ctx addr auth s = some (r, s')) :
      Step sha256 s s'
  | stepWithdraw {s s' : State} (ctx : Ctx) (to_addr : Addr) (amount : Int)
      (r : Bool) (h : withdraw_gas ctx to_addr amount s = some (r, s')) :
      Step sha256 s s'
  | stepDeposit {s s' : State} (ctx : Ctx) (from_addr : Addr) (amount : Int)
      (hnn : 0 ≤ amount)
      (h : onNEP17Payment ctx from_addr amount s = some ((), s')) :
      Step sha256 s s'

/-- States reachable from deployment by completed public invocations. -/
inductive Reachable (sha256 : Bytes → Bytes) : State → Prop
  | init (deployer : Addr) : Reachable sha256 (initState deployer)
  | step {s s' : State} (hr : Reachable sha256 s) (hs : Step sha256 s s') :
      Reachable sha256 s'

/-! ## Sums over finite covering sets

The ledger has unboundedly many possible keys, so "the sum of all stored
balances" is expressed as the sum over any finite set that contains every
key holding a non-zero value; all such sums agree. -/

lemma sum_covering_extend {α : Type} [DecidableEq α] {f : α → Int}
    {D D' : Finset α} (hsub : D ⊆ D') (hcov : ∀ o, f o ≠ 0 → o ∈ D) :
    ∑ o ∈ D', f o = ∑ o ∈ D, f o := by
  refine (Finset.sum_subset hsub ?_).symm
  intro x _ hx
  by_contra h
  exact hx (hcov x h)

lemma sum_update_mem {α : Type} [DecidableEq α] {D : Finset α} {o : α}
    (ho : o ∈ D) (f : α → Int) (v : Int) :
    ∑ x ∈ D, Function.update f o v x = ∑ x ∈ D, f x - f o + v := by
  rw [Finset.sum_update_of_mem ho, ← Finset.erase_eq]
  have h := Finset.sum_erase_add D f ho
  linarith

/-- Updating a balance key of token `t0` does not change any entry of a
different token `t`. -/
lemma update_bal_ne_token {bal : Addr × Bytes → Option Int} {o0 : Addr}
    {t0 : Bytes} (v : Option Int) {t : Bytes} (hne : t ≠ t0) (o : Addr) :
    Function.update bal (o0, t0) v (o, t) = bal (o, t) := by
  rw [Function.update_apply]
  simp only [Prod.mk.injEq]
  exact if_neg (fun h => hne h.2)

/-- The per-owner balance column of token `t0`, after updating the single
key `(o0, t0)`, is the pointwise update of the old column. -/
lemma update_bal_token (bal : Addr × Bytes → Option Int) (o0 : Addr)
    (t0 : Bytes) (v : Option Int) :
    (fun o => (Function.update bal (o0, t0) v (o, t0)).getD 0)
      = Function.update (fun o => (bal (o, t0)).getD 0) o0 (v.getD 0) := by
  funext o
  by_cases h : o = o0
  · subst h
    simp
  · simp [Function.update_apply, Prod.mk.injEq, h]

/-! ## The ledger invariant -/

/-- Every asset supply counter equals the sum of the stored balances of that
asset: for every token `t` and every finite set `D` of owners containing all
owners with a non-zero balance of `t`, the stored supply of `t` is the sum of
the balances over `D`. -/
def SupplyInv (s : State) : Prop :=
  ∀ (t : Bytes) (D : Finset Addr),
    (∀ o, s.balGet o t ≠ 0 → o ∈ D) → s.supply t = ∑ o ∈ D, s.balGet o t

/-- The total supply equals the sum of the asset supplies: for every finite
set `T` of tokens containing all tokens with non-zero supply, the stored
total supply is the sum of the supplies over `T`. -/
def TotalInv (s : State) : Prop :=
  ∀ T : Finset Bytes,
    (∀ t, s.supply t ≠ 0 → t ∈ T) → s.totalSupply = ∑ t ∈ T, s.supply t

/-- The inductive invariant of reachable stores. -/
structure Inv (s : State) : Prop where
  /-- Every stored balance entry is strictly positive. -/
  posBal : ∀ k v, s.balance k = some v → 0 < v
  /-- Finitely many balance keys are present. -/
  finBal : ∃ B : Finset (Addr × Bytes), ∀ k, s.balance k ≠ none → k ∈ B
  /-- Finitely many supply counters are non-zero. -/
  finSup : ∃ T : Finset Bytes, ∀ t, s.supply t ≠ 0 → t ∈ T
  /-- Asset supplies match the ledger. -/
  supplySum : SupplyInv s
  /-- The total supply matches the asset supplies. -/
  totalSum : TotalInv s
  /-- The reserve is never negative. -/
  reserveNN : 0 ≤ s.gasReserve

lemma balGet_nonneg {s : State} (h : ∀ k v, s.balance k = some v → 0 < v)
    (o : Addr) (t : Bytes) : 0 ≤ s.balGet o t := by
  unfold State.balGet
  cases hk : s.balance (o, t) with
  | none => simp
  | some v => simpa using (h _ v hk).le

lemma inv_init (deployer : Addr) : Inv (initState deployer) := by
  constructor
  · intro k v hk
    simp [initState] at hk
  · exact ⟨∅, by intro k hk; simp [initState] at hk⟩
  · exact ⟨∅, by intro t ht; simp [initState] at ht⟩
  · intro t D _
    simp [initState, State.balGet]
  · intro T _
    simp [initState]
  · simp [initState]

/-- Invariant preservation for an operation that leaves the ledger, the
supplies and the total supply untouched. -/
lemma inv_frame {s s' : State} (hinv : Inv s)
    (hbal : s'.balance = s.balance) (hsup : s'.supply = s.supply)
    (htot : s'.totalSupply = s.totalSupply) (hres : 0 ≤ s'.gasReserve) :
    Inv s' := by
  constructor
  · intro k v hk
    exact hinv.posBal k v (hbal ▸ hk)
  · obtain ⟨B, hB⟩ := hinv.finBal
    exact ⟨B, fun k hk => hB k (hbal ▸ hk)⟩
  · obtain ⟨T, hT⟩ := hinv.finSup
    exact ⟨T, fun t ht => hT t (hsup ▸ ht)⟩
  · intro t D hcov
    have hbg : ∀ o, s'.balGet o t = s.balGet o t := by
      intro o
      simp [State.balGet, hbal]
    rw [hsup]
    rw [Finset.sum_congr rfl fun o _ => hbg o]
    exact hinv.supplySum t D fun o ho => hcov o (by rw [hbg o]; exact ho)
  · intro T hcov
    rw [htot, hsup]
    rw [Finset.sum_congr rfl fun t _ => rfl]
    exact hinv.totalSum T fun t ht => hcov t (by rw [hsup]; exact ht)
  · exact hres

/-- Invariant preservation for an operation that changes the ledger at one
key `(o0, t0)` by `d`, and the supply of `t0` and the total supply by the
same `d` (mint, buy, burn, sell). -/
lemma inv_delta {s s' : State} (hinv : Inv s) (o0 : Addr) (t0 : Bytes)
    (v : Option Int) (d : Int)
    (hv : v.getD 0 = s.balGet o0 t0 + d)
    (hpos : ∀ w, v = some w → 0 < w)
    (hbal : s'.balance = Function.update s.balance (o0, t0) v)
    (hsup : s'.supply = Function.update s.supply t0 (s.supply t0 + d))
    (htot : s'.totalSupply = s.totalSupply + d)
    (hres : 0 ≤ s'.gasReserve) : Inv s' := by
  constructor
  · intro k w hk
    rw [hbal, Function.update_apply] at hk
    by_cases h : k = (o0, t0)
    · rw [if_pos h] at hk
      exact hpos w hk
    · rw [if_neg h] at hk
      exact hinv.posBal k w hk
  · obtain ⟨B, hB⟩ := hinv.finBal
    refine ⟨insert (o0, t0) B, fun k hk => ?_⟩
    rw [hbal, Function.update_apply] at hk
    by_cases h : k = (o0, t0)
    · exact h ▸ Finset.mem_insert_self _ _
    · rw [if_neg h] at hk
      exact Finset.mem_insert_of_mem (hB k hk)
  · obtain ⟨T, hT⟩ := hinv.finSup
    refine ⟨insert t0 T, fun t ht => ?_⟩
    rw [hsup, Function.update_apply] at ht
    by_cases h : t = t0
    · exact h ▸ Finset.mem_insert_self _ _
    · rw [if_neg h] at ht
      exact Finset.mem_insert_of_mem (hT t ht)
  · intro t D hcov
    by_cases ht : t = t0
    · subst ht
      have hf' : (fun o => s'.balGet o t)
          = Function.update (fun o => s.balGet o t) o0 (v.getD 0) := by
        simp only [State.balGet, hbal]
        exact update_bal_token s.balance o0 t v
      have hsub : D ⊆ insert o0 D := Finset.subset_insert o0 D
      have hcov' : ∀ o, s.balGet o t ≠ 0 → o ∈ insert o0 D := by
        intro o ho
        by_cases h : o = o0
        · exact h ▸ Finset.mem_insert_self _ _
        · refine Finset.mem_insert_of_mem (hcov o ?_)
          have : s'.balGet o t = s.balGet o t := by
            rw [congrFun hf' o, Function.update_apply, if_neg h]
          rw [this]
          exact ho
      have hcovD : ∀ o, s'.balGet o t ≠ 0 → o ∈ D := hcov
      have e1 : ∑ o ∈ insert o0 D, s'.balGet o t = ∑ o ∈ D, s'.balGet o t :=
        sum_covering_extend hsub hcovD
      have e2 : ∑ o ∈ insert o0 D, s'.balGet o t
          = ∑ o ∈ insert o0 D, s.balGet o t - s.balGet o0 t + v.getD 0 := by
        rw [Finset.sum_congr rfl fun o _ => congrFun hf' o]
        exact sum_update_mem (Finset.mem_insert_self o0 D) _ _
      have e3 : s.supply t = ∑ o ∈ insert o0 D, s.balGet o t :=
        hinv.supplySum t _ hcov'
      have e4 : s'.supply t = s.supply t + d := by
        rw [hsup, Function.update_apply, if_pos rfl]
      rw [e4, ← e1, e2, ← e3, hv]
      ring
    · have hbg : ∀ o, s'.balGet o t = s.balGet o t := by
        intro o
        simp only [State.balGet, hbal]
        rw [update_bal_ne_token v ht o]
      have e0 : s'.supply t = s.supply t := by
        rw [hsup, Function.update_apply, if_neg ht]
      rw [e0, Finset.sum_congr rfl fun o _ => hbg o]
      exact hinv.supplySum t D fun o ho => hcov o (by rw [hbg o]; exact ho)
  · intro T hcov
    have hsub : T ⊆ insert t0 T := Finset.subset_insert t0 T
    have hcovT : ∀ t, s'.supply t ≠ 0 → t ∈ T := hcov
    have hcov' : ∀ t, s.supply t ≠ 0 → t ∈ insert t0 T := by
      intro t ht
      by_cases h : t = t0
      · exact h ▸ Finset.mem_insert_self _ _
      · refine Finset.mem_insert_of_mem (hcov t ?_)
        rw [hsup, Function.update_apply, if_neg h]
        exact ht
    have e1 : ∑ t ∈ insert t0 T, s'.supply t = ∑ t ∈ T, s'.supply t :=
      sum_covering_extend hsub hcovT
    have e2 : ∑ t ∈ insert t0 T, s'.supply t
        = ∑ t ∈ insert t0 T, s.supply t - s.supply t0 + (s.supply t0 + d) := by
      rw [Finset.sum_congr rfl fun t _ => by rw [hsup]]
      exact sum_update_mem (Finset.mem_insert_self t0 T) _ _
    have e3 : s.totalSupply = ∑ t ∈ insert t0 T, s.supply t :=
      hinv.totalSum _ hcov'
    rw [htot, ← e1, e2, ← e3]
    ring
  · exact hres

lemma update_bal_ne_owner {bal : Addr × Bytes → Option Int} {o0 : Addr}
    {t0 : Bytes} (v : Option Int) {o : Addr} (hne : o ≠ o0) (t : Bytes) :
    Function.update bal (o0, t0) v (o, t) = bal (o, t) := by
  rw [Function.update_apply]
  exact if_neg (by simp only [Prod.mk.injEq]; exact fun h => hne h.1)

lemma balance_some_of_le {s : State} {o : Addr} {t : Bytes} {a : Int}
    (hlt : 0 < a) (hle : a ≤ s.balGet o t) :
    s.balance (o, t) = some (s.balGet o t) := by
  cases hk : s.balance (o, t) with
  | none =>
      have h0 : s.balGet o t = 0 := by simp [State.balGet, hk]
      omega
  | some v => simp [State.balGet, hk]

/-- A self-transfer debits and immediately re-credits the same key, leaving
the ledger exactly as it was. -/
lemma transferApply_self (s : State) (a : Addr) (amount : Int) (t : Bytes)
    (hamt : 0 < amount) (hle : amount ≤ s.balGet a t)
    (hsome : s.balance (a, t) = some (s.balGet a t)) :
    (transferApply a a amount t s).balance = s.balance := by
  simp only [transferApply, State.balGet, Function.update_same]
  rw [Function.update_idem]
  have hget : (if 0 < s.balGet a t - amount then some (s.balGet a t - amount)
      else none).getD 0 = s.balGet a t - amount := by
    split_ifs with h
    · rfl
    · simp only [Option.getD_none]
      omega
  rw [show ((s.balance (a, t)).getD 0) = s.balGet a t from rfl, hget]
  have harith : s.balGet a t - amount + amount = s.balGet a t := by ring
  rw [harith, ← hsome, Function.update_eq_self]

lemma transferApply_balance_ne {s : State} {a b : Addr} (amount : Int)
    (t : Bytes) (hab : a ≠ b) :
    (transferApply a b amount t s).balance
      = Function.update (Function.update s.balance (a, t)
          (if 0 < s.balGet a t - amount then some (s.balGet a t - amount)
           else none))
        (b, t) (some (s.balGet b t + amount)) := by
  simp only [transferApply, State.balGet]
  rw [update_bal_ne_owner _ (Ne.symm hab) t]

/-- Invariant preservation for the writes of a successful `transfer`. -/
lemma inv_transfer {s : State} (hinv : Inv s) (a b : Addr) (amount : Int)
    (t : Bytes) (hamt : 0 < amount) (hle : amount ≤ s.balGet a t) :
    Inv (transferApply a b amount t s) := by
  have hsome : s.balance (a, t) = some (s.balGet a t) :=
    balance_some_of_le hamt hle
  by_cases hab : a = b
  · subst hab
    exact inv_frame hinv (transferApply_self s a amount t hamt hle hsome)
      rfl rfl hinv.reserveNN
  · have hbal' := transferApply_balance_ne (s := s) amount t hab
    set v1 : Option Int :=
      if 0 < s.balGet a t - amount then some (s.balGet a t - amount) else none
      with hv1
    have hv1get : v1.getD 0 = s.balGet a t - amount := by
      rw [hv1]
      split_ifs with h
      · rfl
      · simp only [Option.getD_none]
        omega
    have hcolP : ∀ o, (transferApply a b amount t s).balGet o t
        = Function.update (Function.update (fun o => s.balGet o t) a
            (v1.getD 0)) b (s.balGet b t + amount) o := by
      intro o
      show ((transferApply a b amount t s).balance (o, t)).getD 0 = _
      rw [hbal']
      simp only [Function.update_apply, Prod.mk.injEq, and_true]
      by_cases hob : o = b <;> by_cases hoa : o = a <;>
        simp [hob, hoa, hab, State.balGet]
    have hcol_ne : ∀ tx : Bytes, tx ≠ t →
        ∀ o, (transferApply a b amount t s).balGet o tx = s.balGet o tx := by
      intro tx htx o
      show ((transferApply a b amount t s).balance (o, tx)).getD 0 = _
      rw [hbal', update_bal_ne_token _ htx o, update_bal_ne_token _ htx o]
      rfl
    constructor
    · intro k w hk
      rw [hbal', Function.update_apply] at hk
      by_cases h : k = (b, t)
      · rw [if_pos h, Option.some.injEq] at hk
        have hb0 : 0 ≤ s.balGet b t := balGet_nonneg hinv.posBal b t
        omega
      · rw [if_neg h, Function.update_apply] at hk
        by_cases h' : k = (a, t)
        · rw [if_pos h'] at hk
          rw [hv1] at hk
          split_ifs at hk with hc
          rw [Option.some.injEq] at hk
          omega
        · rw [if_neg h'] at hk
          exact hinv.posBal k w hk
    · obtain ⟨B, hB⟩ := hinv.finBal
      refine ⟨insert (a, t) (insert (b, t) B), fun k hk => ?_⟩
      rw [hbal', Function.update_apply] at hk
      by_cases h : k = (b, t)
      · exact h ▸ Finset.mem_insert_of_mem (Finset.mem_insert_self _ _)
      · rw [if_neg h, Function.update_apply] at hk
        by_cases h' : k = (a, t)
        · exact h' ▸ Finset.mem_insert_self _ _
        · rw [if_neg h'] at hk
          exact Finset.mem_insert_of_mem (Finset.mem_insert_of_mem (hB k hk))
    · obtain ⟨T, hT⟩ := hinv.finSup
      exact ⟨T, hT⟩
    · intro t' D hcov
      by_cases ht : t' = t
      · subst ht
        have hcol_out : ∀ o, o ≠ a → o ≠ b →
            (transferApply a b amount t' s).balGet o t' = s.balGet o t' := by
          intro o ha hb
          rw [hcolP o, Function.update_apply, if_neg hb,
            Function.update_apply, if_neg ha]
        have haD' : a ∈ insert a (insert b D) := Finset.mem_insert_self a _
        have hbD' : b ∈ insert a (insert b D) :=
          Finset.mem_insert_of_mem (Finset.mem_insert_self b _)
        have hsubD : D ⊆ insert a (insert b D) :=
          (Finset.subset_insert b D).trans (Finset.subset_insert a _)
        have e1 : ∑ o ∈ insert a (insert b D),
              (transferApply a b amount t' s).balGet o t'
            = ∑ o ∈ D, (transferApply a b amount t' s).balGet o t' :=
          sum_covering_extend hsubD hcov
        have e2 : ∑ o ∈ insert a (insert b D),
              (transferApply a b amount t' s).balGet o t'
            = ∑ o ∈ insert a (insert b D),
                Function.update (fun o => s.balGet o t') a (v1.getD 0) o
              - Function.update (fun o => s.balGet o t') a (v1.getD 0) b
              + (s.balGet b t' + amount) := by
          rw [Finset.sum_congr rfl fun o _ => hcolP o]
          exact sum_update_mem hbD' _ _
        have e3 : Function.update (fun o => s.balGet o t') a (v1.getD 0) b
            = s.balGet b t' := by
          rw [Function.update_apply, if_neg (fun h => hab h.symm)]
        have e4 : ∑ o ∈ insert a (insert b D),
              Function.update (fun o => s.balGet o t') a (v1.getD 0) o
            = ∑ o ∈ insert a (insert b D), s.balGet o t' - s.balGet a t'
              + v1.getD 0 :=
          sum_update_mem haD' _ _
        have e5 : s.supply t' = ∑ o ∈ insert a (insert b D), s.balGet o t' := by
          refine hinv.supplySum t' _ fun o ho => ?_
          by_cases h : o = a
          · exact h ▸ haD'
          · by_cases h' : o = b
            · exact h' ▸ hbD'
            · exact hsubD (hcov o (by rw [hcol_out o h h']; exact ho))
        have hfin : (transferApply a b amount t' s).supply t' = s.supply t' := rfl
        rw [hfin, ← e1, e2, e3, e4, hv1get, e5]
        ring
      · have e0 : ∀ o, (transferApply a b amount t s).balGet o t'
            = s.balGet o t' := hcol_ne t' ht
        rw [show (transferApply a b amount t s).supply t' = s.supply t' from rfl]
        rw [Finset.sum_congr rfl fun o _ => e0 o]
        exact hinv.supplySum t' D fun o ho => hcov o (by rw [e0 o]; exact ho)
    · intro T hcov
      exact hinv.totalSum T hcov
    · exact hinv.reserveNN

/-- Every completed public invocation preserves the ledger invariant. -/
lemma step_inv {sha256 : Bytes → Bytes} {s s' : State} (hinv : Inv s)
    (h : Step sha256 s s') : Inv s' := by
  cases h with
  | stepTransfer ctx from_addr to_addr amount token_id r h =>
      rw [transfer_eq] at h
      split_ifs at h with h1 h2 h3
      · simp only [Option.some.injEq, Prod.mk.injEq] at h
        exact h.2 ▸ hinv
      · simp only [Option.some.injEq, Prod.mk.injEq] at h
        exact h.2 ▸ inv_transfer hinv from_addr to_addr amount token_id
          h1.2.1 (not_lt.mp h2)
  | stepMint ctx to_addr model_id amount quality r h =>
      rw [mint_eq] at h
      split_ifs at h with h1
      simp only [Option.some.injEq, Prod.mk.injEq] at h
      obtain ⟨hr, hs⟩ := h
      subst hs
      obtain ⟨hp, hlen, hml, hamt, hq, hmin, hact⟩ := h1
      refine inv_delta hinv to_addr (sha256 model_id)
        (some (s.balGet to_addr (sha256 model_id) + mintActual amount quality))
        (mintActual amount quality) rfl ?_ rfl rfl rfl hinv.reserveNN
      intro w hw
      rw [Option.some.injEq] at hw
      have hnn := balGet_nonneg hinv.posBal to_addr (sha256 model_id)
      omega
  | stepBurn ctx owner token_id amount r h =>
      rw [burn_eq] at h
      split_ifs at h with h1 h2
      · simp only [Option.some.injEq, Prod.mk.injEq] at h
        exact h.2 ▸ hinv
      · simp only [Option.some.injEq, Prod.mk.injEq] at h
        obtain ⟨hr, hs⟩ := h
        subst hs
        have hle : amount ≤ s.balGet owner token_id := not_lt.mp h2
        refine inv_delta hinv owner token_id
          (if 0 < s.balGet owner token_id - amount
           then some (s.balGet owner token_id - amount) else none)
          (-amount) ?_ ?_ rfl rfl rfl hinv.reserveNN
        · split_ifs with hc
          · show s.balGet owner token_id - amount = _
            ring
          · simp only [Option.getD_none]
            omega
        · intro w hw
          split_ifs at hw with hc
          rw [Option.some.injEq] at hw
          omega
  | stepBuy ctx buyer model_id gas_amount minted h =>
      rw [buy_eq] at h
      split_ifs at h with h1
      simp only [Option.some.injEq, Prod.mk.injEq] at h
      obtain ⟨hr, hs⟩ := h
      subst hs
      obtain ⟨hp, hlen, hml, hg, hpr, hc⟩ := h1
      refine inv_delta hinv buyer (sha256 model_id)
        (some (s.balGet buyer (sha256 model_id)
          + buyMinted sha256 model_id gas_amount s))
        (buyMinted sha256 model_id gas_amount s) rfl ?_ rfl rfl rfl ?_
      · intro w hw
        rw [Option.some.injEq] at hw
        have hnn := balGet_nonneg hinv.posBal buyer (sha256 model_id)
        omega
      · show 0 ≤ s.gasReserve + gas_amount
        have hnn := hinv.reserveNN
        omega
  | stepSell ctx seller model_id amount payout h =>
      rw [sell_eq] at h
      split_ifs at h with h1
      simp only [Option.some.injEq, Prod.mk.injEq] at h
      obtain ⟨hr, hs⟩ := h
      subst hs
      obtain ⟨⟨hp, hw, hml, hamt, hle, hpr, hnet, hres⟩, hgas⟩ := h1
      refine inv_delta hinv seller (sha256 model_id)
        (if 0 < s.balGet seller (sha256 model_id) - amount
         then some (s.balGet seller (sha256 model_id) - amount) else none)
        (-amount) ?_ ?_ rfl rfl rfl ?_
      · split_ifs with hc
        · show s.balGet seller (sha256 model_id) - amount = _
          ring
        · simp only [Option.getD_none]
          omega
      · intro w hw'
        split_ifs at hw' with hc
        rw [Option.some.injEq] at hw'
        omega
      · show 0 ≤ s.gasReserve - sellNet sha256 model_id amount s
        omega
  | stepPrice ctx model_id price_gas r h =>
      unfold update_price_oracle at h
      split_ifs at h
      simp only [Option.some.injEq, Prod.mk.injEq] at h
      exact h.2 ▸ inv_frame hinv rfl rfl rfl hinv.reserveNN
  | stepPause ctx r h =>
      unfold pause at h
      split_ifs at h
      simp only [Option.some.injEq, Prod.mk.injEq] at h
      exact h.2 ▸ inv_frame hinv rfl rfl rfl hinv.reserveNN
  | stepResume ctx r h =>
      unfold resume at h
      split_ifs at h
      simp only [Option.some.injEq, Prod.mk.injEq] at h
      exact h.2 ▸ inv_frame hinv rfl rfl rfl hinv.reserveNN
  | stepSetOracle ctx addr auth r h =>
      unfold set_oracle at h
      split_ifs at h <;>
        simp only [Option.some.injEq, Prod.mk.injEq] at h <;>
        exact h.2 ▸ inv_frame hinv rfl rfl rfl hinv.reserveNN
  | stepSetMinter ctx addr auth r h =>
      unfold set_minter at h
      split_ifs at h <;>
        simp only [Option.some.injEq, Prod.mk.injEq] at h <;>
        exact h.2 ▸ inv_frame hinv rfl rfl rfl hinv.reserveNN
  | stepWithdraw ctx to_addr amount r h =>
      rw [withdraw_gas_eq] at h
      split_ifs at h with h1
      simp only [Option.some.injEq, Prod.mk.injEq] at h
      refine h.2 ▸ inv_frame hinv rfl rfl rfl ?_
      show 0 ≤ s.gasReserve - amount
      have hle := h1.1.2.2.2
      omega
  | stepDeposit ctx from_addr amount hnn h =>
      unfold onNEP17Payment at h
      split_ifs at h
      simp only [Option.some.injEq, Prod.mk.injEq, true_and] at h
      refine h ▸ inv_frame hinv rfl rfl rfl ?_
      show 0 ≤ s.gasReserve + amount
      have hr := hinv.reserveNN
      omega

/-- Every reachable store satisfies the ledger invariant. -/
lemma reachable_inv {sha256 : Bytes → Bytes} {s : State}
    (h : Reachable sha256 s) : Inv s := by
  induction h with
  | init d => exact inv_init d
  | step hr hs ih => exact step_inv ih hs

lemma transferApply_balance_other {s : State} {a b : Addr} {amount : Int}
    {t : Bytes} {o : Addr} {tx : Bytes} (hk : tx ≠ t) :
    (transferApply a b amount t s).balance (o, tx) = s.balance (o, tx) := by
  simp only [transferApply]
  rw [update_bal_ne_token _ hk o, update_bal_ne_token _ hk o]

lemma mintApply_balance_other {sha256 : Bytes → Bytes} {to_addr : Addr}
    {model_id : Bytes} {amount quality : Int} {s : State} {o : Addr}
    {tx : Bytes} (hk : tx ≠ sha256 model_id) :
    (mintApply sha256 to_addr model_id amount quality s).balance (o, tx)
      = s.balance (o, tx) := by
  simp only [mintApply]
  rw [update_bal_ne_token _ hk o]

lemma burnApply_balance_other {owner : Addr} {token_id : Bytes}
    {amount : Int} {s : State} {o : Addr} {tx : Bytes} (hk : tx ≠ token_id) :
    (burnApply owner token_id amount s).balance (o, tx)
      = s.balance (o, tx) := by
  simp only [burnApply]
  rw [update_bal_ne_token _ hk o]

lemma buyApply_balance_other {sha256 : Bytes → Bytes} {buyer : Addr}
    {model_id : Bytes} {gas_amount : Int} {s : State} {o : Addr}
    {tx : Bytes} (hk : tx ≠ sha256 model_id) :
    (buyApply sha256 buyer model_id gas_amount s).balance (o, tx)
      = s.balance (o, tx) := by
  simp only [buyApply]
  rw [update_bal_ne_token _ hk o]

lemma sellApply_balance_other {sha256 : Bytes → Bytes} {seller : Addr}
    {model_id : Bytes} {amount : Int} {s : State} {o : Addr}
    {tx : Bytes} (hk : tx ≠ sha256 model_id) :
    (sellApply sha256 seller model_id amount s).balance (o, tx)
      = s.balance (o, tx) := by
  simp only [sellApply]
  rw [update_bal_ne_token _ hk o]

/-- As long as the hash returns non-empty digests, no completed invocation
ever creates a balance entry under a bare key `(owner, [])`: `mint`, `buy`
and `sell` only write under hashed (hence non-empty) token ids, and
`transfer` and `burn` with an empty token id fail their balance check
(the bare balance reads as 0) and return `false` without writing. -/
lemma step_bare {sha256 : Bytes → Bytes} {s s' : State}
    (hsha : ∀ m, sha256 m ≠ ([] : Bytes))
    (hb : ∀ o : Addr, s.balance (o, ([] : Bytes)) = none)
    (h : Step sha256 s s') : ∀ o : Addr, s'.balance (o, ([] : Bytes)) = none := by
  have hne : ∀ m : Bytes, ([] : Bytes) ≠ sha256 m := fun m hh => hsha m hh.symm
  cases h with
  | stepTransfer ctx from_addr to_addr amount token_id r h =>
      rw [transfer_eq] at h
      split_ifs at h with h1 h2 h3
      · simp only [Option.some.injEq, Prod.mk.injEq] at h
        exact h.2 ▸ hb
      · simp only [Option.some.injEq, Prod.mk.injEq] at h
        obtain ⟨hr, hs⟩ := h
        subst hs
        by_cases ht : token_id = ([] : Bytes)
        · exfalso
          subst ht
          have h0 : s.balGet from_addr ([] : Bytes) = 0 := by
            simp [State.balGet, hb from_addr]
          have hamt : 0 < amount := h1.2.1
          exact h2 (by omega)
        · intro o
          rw [transferApply_balance_other fun hh => ht hh.symm]
          exact hb o
  | stepMint ctx to_addr model_id amount quality r h =>
      rw [mint_eq] at h
      split_ifs at h with h1
      simp only [Option.some.injEq, Prod.mk.injEq] at h
      obtain ⟨hr, hs⟩ := h
      subst hs
      intro o
      rw [mintApply_balance_other (hne model_id)]
      exact hb o
  | stepBurn ctx owner token_id amount r h =>
      rw [burn_eq] at h
      split_ifs at h with h1 h2
      · simp only [Option.some.injEq, Prod.mk.injEq] at h
        exact h.2 ▸ hb
      · simp only [Option.some.injEq, Prod.mk.injEq] at h
        obtain ⟨hr, hs⟩ := h
        subst hs
        by_cases ht : token_id = ([] : Bytes)
        · exfalso
          subst ht
          have h0 : s.balGet owner ([] : Bytes) = 0 := by
            simp [State.balGet, hb owner]
          have hamt : 0 < amount := h1.2.2
          exact h2 (by omega)
        · intro o
          rw [burnApply_balance_other fun hh => ht hh.symm]
          exact hb o
  | stepBuy ctx buyer model_id gas_amount minted h =>
      rw [buy_eq] at h
      split_ifs at h with h1
      simp only [Option.some.injEq, Prod.mk.injEq] at h
      obtain ⟨hr, hs⟩ := h
      subst hs
      intro o
      rw [buyApply_balance_other (hne model_id)]
      exact hb o
  | stepSell ctx seller model_id amount payout h =>
      rw [sell_eq] at h
      split_ifs at h with h1
      simp only [Option.some.injEq, Prod.mk.injEq] at h
      obtain ⟨hr, hs⟩ := h
      subst hs
      intro o
      rw [sellApply_balance_other (hne model_id)]
      exact hb o
  | stepPrice ctx model_id price_gas r h =>
      unfold update_price_oracle at h
      split_ifs at h
      simp only [Option.some.injEq, Prod.mk.injEq] at h
      exact h.2 ▸ hb
  | stepPause ctx r h =>
      unfold pause at h
      split_ifs at h
      simp only [Option.some.injEq, Prod.mk.injEq] at h
      exact h.2 ▸ hb
  | stepResume ctx r h =>
      unfold resume at h
      split_ifs at h
      simp only [Option.some.injEq, Prod.mk.injEq] at h
      exact h.2 ▸ hb
  | stepSetOracle ctx addr auth r h =>
      unfold set_oracle at h
      split_ifs at h <;>
        simp only [Option.some.injEq, Prod.mk.injEq] at h <;>
        exact h.2 ▸ hb
  | stepSetMinter ctx addr auth r h =>
      unfold set_minter at h
      split_ifs at h <;>
        simp only [Option.some.injEq, Prod.mk.injEq] at h <;>
        exact h.2 ▸ hb
  | stepWithdraw ctx to_addr amount r h =>
      rw [withdraw_gas_eq] at h
      split_ifs at h with h1
      simp only [Option.some.injEq, Prod.mk.injEq] at h
      exact h.2 ▸ hb
  | stepDeposit ctx from_addr amount hnn h =>
      unfold onNEP17Payment at h
      split_ifs at h
      simp only [Option.some.injEq, Prod.mk.injEq, true_and] at h
      exact h ▸ hb

/-- In every reachable store there is no balance entry under a bare key. -/
lemma reachable_bare {sha256 : Bytes → Bytes} {s : State}
    (hsha : ∀ m, sha256 m ≠ ([] : Bytes)) (h : Reachable sha256 s) :
    ∀ o : Addr, s.balance (o, ([] : Bytes)) = none := by
  induction h with
  | init d => intro o; rfl
  | step hr hs ih => exact step_bare hsha ih hs

/-! ## Concrete scenario material

Concrete 20-byte addresses, a concrete 32-byte stand-in for the external
sha256 primitive, and the stores of the specification's worked scenarios. -/

/-- A concrete 32-byte digest function standing in for the external
`CryptoLib.sha256` in concrete scenarios. -/
def shaDemo (m : Bytes) : Bytes := m.length % 256 :: List.replicate 31 0

lemma shaDemo_length (m : Bytes) : (shaDemo m).length = 32 := by
  simp [shaDemo]

def addrA : Addr := List.replicate 20 1

def addrB : Addr := List.replicate 20 2

def addrC : Addr := List.replicate 20 3

def modelDemo : Bytes := [88]

def tokenDemo : Bytes := shaDemo modelDemo

/-- Invocation context of the admin/deployer `addrA`. -/
def ctxAdmin : Ctx where
  caller := addrA
  witness := fun a => decide (a = addrA)
  gasOk := true
  recvOk := true

/-- Invocation context of the user `addrB`. -/
def ctxB : Ctx where
  caller := addrB
  witness := fun a => decide (a = addrB)
  gasOk := true
  recvOk := true

/-- Invocation context of the GAS token contract. -/
def ctxGas : Ctx where
  caller := GAS_HASH
  witness := fun _ => false
  gasOk := true
  recvOk := true

/-- A context whose external `GasToken.transfer` reports failure. -/
def ctxFail : Ctx where
  caller := addrA
  witness := fun _ => true
  gasOk := false
  recvOk := true

/-- The store of the specification's sell scenario: seller `addrB` holds
99700 units of `tokenDemo`, its price is 100000000, the reserve is 100000. -/
def sellDemoState : State where
  balance := fun k => if k = (addrB, tokenDemo) then some 99700 else none
  supply := fun t => if t = tokenDemo then 99700 else 0
  totalSupply := 99700
  price := fun t => if t = tokenDemo then 100000000 else 0
  gasReserve := 100000
  paused := false
  admin := addrA
  oracle := fun a => decide (a = addrA)
  minter := fun a => decide (a = addrA)

/-- The store of the specification's buy scenario: price 100000000,
no holdings yet. -/
def buyDemoState : State where
  balance := fun _ => none
  supply := fun _ => 0
  totalSupply := 0
  price := fun t => if t = tokenDemo then 100000000 else 0
  gasReserve := 0
  paused := false
  admin := addrA
  oracle := fun a => decide (a = addrA)
  minter := fun a => decide (a = addrA)

/-- A paused store with a funded reserve. -/
def pausedDemoState : State where
  balance := fun _ => none
  supply := fun _ => 0
  totalSupply := 0
  price := fun _ => 0
  gasReserve := 5
  paused := true
  admin := addrA
  oracle := fun a => decide (a = addrA)
  minter := fun a => decide (a = addrA)

/-- The store after the specification's mint scenario is run from the
freshly deployed store. -/
def mintDemoState : State :=
  mintApply shaDemo addrB modelDemo 100000000000 80 (initState addrA)

lemma mint_demo_eq :
    mint shaDemo ctxAdmin addrB modelDemo 100000000000 80 (initState addrA)
      = some (true, mintDemoState) := by
  rw [mint_eq]
  have h1 : mintPre ctxAdmin addrB modelDemo 100000000000 80 (initState addrA) := by
    decide
  rw [if_pos h1]
  rfl

/-- The mint scenario as a step of the transition system. -/
lemma mintDemoStep : Step shaDemo (initState addrA) mintDemoState :=
  Step.stepMint ctxAdmin addrB modelDemo 100000000000 80 true mint_demo_eq

/-- The store of the mint scenario is reachable. -/
lemma mintDemoReach : Reachable shaDemo mintDemoState :=
  Reachable.step (Reachable.init addrA) mintDemoStep

lemma transfer_demo_self :
    transfer ctxB addrB addrB 2000 tokenDemo sellDemoState
      = some (true, transferApply addrB addrB 2000 tokenDemo sellDemoState) := by
  rw [transfer_eq]
  have h1 : transferPre ctxB addrB addrB 2000 sellDemoState := by decide
  have h2 : ¬ sellDemoState.balGet addrB tokenDemo < 2000 := by decide
  rw [if_pos h1, if_neg h2, if_pos (show ctxB.recvOk = true from rfl)]

lemma transfer_demo_bc :
    transfer ctxB addrB addrC 2000 tokenDemo sellDemoState
      = some (true, transferApply addrB addrC 2000 tokenDemo sellDemoState) := by
  rw [transfer_eq]
  have h1 : transferPre ctxB addrB addrC 2000 sellDemoState := by decide
  have h2 : ¬ sellDemoState.balGet addrB tokenDemo < 2000 := by decide
  rw [if_pos h1, if_neg h2, if_pos (show ctxB.recvOk = true from rfl)]

/-! ## The claims -/

/-- C1: for every reachable state and every completed operation of the
contract (mint, burn, transfer, buy_compute, sell_compute,
update_price_oracle, pause, resume, set_oracle, set_minter, withdraw_gas,
onNEP17Payment), the resulting state satisfies: the total supply equals the
sum over all assets of the asset supplies, and for every asset the asset
supply equals the sum of all stored balances of that asset. -/
theorem reachable_supply_total_invariant {sha256 : Bytes → Bytes}
    {s s' : State} (hr : Reachable sha256 s) (hs : Step sha256 s s') :
    TotalInv s' ∧ SupplyInv s' :=
  have hinv := step_inv (reachable_inv hr) hs
  ⟨hinv.totalSum, hinv.supplySum⟩

/-- Witness for C1: the invariant after the specification's mint scenario
run from a freshly deployed store. -/
theorem reachable_supply_total_invariant_witness :
    TotalInv mintDemoState ∧ SupplyInv mintDemoState :=
  reachable_supply_total_invariant (Reachable.init addrA) mintDemoStep

/-- C7: in every reachable state the reserve balance is non-negative, and a
successful sell always has a prior reserve of at least the payout, so no
sell drives the reserve below 0. -/
theorem reserve_nonneg_and_sell_bounded {sha256 : Bytes → Bytes} {s : State}
    (hr : Reachable sha256 s) :
    0 ≤ s.gasReserve ∧
      ∀ (ctx : Ctx) (seller : Addr) (model_id : Bytes) (amount payout : Int)
        (s' : State),
        sell_compute sha256 ctx seller model_id amount s = some (payout, s') →
        payout ≤ s.gasReserve := by
  refine ⟨(reachable_inv hr).reserveNN, ?_⟩
  intro ctx seller model_id amount payout s' h
  rw [sell_eq] at h
  split_ifs at h with h1
  simp only [Option.some.injEq, Prod.mk.injEq] at h
  have h8 := h1.1.2.2.2.2.2.2.2
  have hp := h.1
  omega

/-- Witness for C7 at a concrete reachable state. -/
theorem reserve_nonneg_and_sell_bounded_witness :
    0 ≤ mintDemoState.gasReserve :=
  (reserve_nonneg_and_sell_bounded mintDemoReach).1

/-- C8: in every reachable state, no stored balance entry is zero or
negative (an entry that would reach 0 is deleted instead of stored). -/
theorem no_zero_or_negative_balance {sha256 : Bytes → Bytes} {s : State}
    (hr : Reachable sha256 s) :
    ∀ (k : Addr × Bytes) (v : Int), s.balance k = some v → 0 < v :=
  (reachable_inv hr).posBal

/-- Witness for C8: the entry written by the mint scenario is positive. -/
theorem no_zero_or_negative_balance_witness :
    mintDemoState.balance (addrB, tokenDemo) = some 80000000000 ∧
    0 < (80000000000 : Int) :=
  ⟨by decide, no_zero_or_negative_balance mintDemoReach (addrB, tokenDemo)
    80000000000 (by decide)⟩

/-- C9: buy_compute performs no caller-identity verification: its result and
successor state are independent of the invocation context (caller, witness
oracle, external-call outcomes), so any caller can execute a buy on behalf
of any buyer address. -/
theorem buy_compute_caller_independent (sha256 : Bytes → Bytes)
    (ctx1 ctx2 : Ctx) (buyer : Addr) (model_id : Bytes) (gas_amount : Int)
    (s : State) :
    buy_compute sha256 ctx1 buyer model_id gas_amount s
      = buy_compute sha256 ctx2 buyer model_id gas_amount s := rfl

/-- C10: in every reachable state, for every 20-byte owner, the public read
balanceOf returns 0: it reads the bare key with no token-id suffix, and no
operation ever writes a balance under a bare key. -/
theorem balanceOf_always_zero {sha256 : Bytes → Bytes} {s : State}
    (owner : Addr) (hsha : ∀ m, (sha256 m).length = 32)
    (hr : Reachable sha256 s) (hlen : owner.length = 20) :
    balanceOf owner s = some 0 := by
  have hnil : ∀ m, sha256 m ≠ ([] : Bytes) := by
    intro m hm
    have hl := hsha m
    rw [hm] at hl
    simp at hl
  have hb := reachable_bare hnil hr owner
  unfold balanceOf
  rw [if_pos hlen, hb]
  rfl

/-- Witness for C10: after the mint scenario, addrB holds 80000000000 units
of tokenDemo, yet balanceOf addrB still reads 0. -/
theorem balanceOf_always_zero_witness :
    balanceOf addrB mintDemoState = some 0 :=
  balanceOf_always_zero addrB shaDemo_length mintDemoReach (by decide)

/-- C2: when the external payout transfer succeeds, sell_compute succeeds
exactly under the listed preconditions (not paused, caller witnessed as the
seller, amount above 1000, balance at least amount, positive stored price,
positive net payout `gross - fee` with `gross = amount * p / 10^8` and
`fee = gross * 3 / 1000`, reserve at least the payout, well-formed model
id), in which case it returns the payout and debits the seller's balance,
the asset supply and the total supply each by `amount` and the reserve by
the payout; when any precondition fails it rejects (`none`, i.e. the whole
transaction is reverted with no state change). -/
theorem sell_compute_correct (sha256 : Bytes → Bytes) (ctx : Ctx)
    (seller : Addr) (model_id : Bytes) (amount : Int) (s : State)
    (hgas : ctx.gasOk = true) :
    (sellPre sha256 ctx seller model_id amount s →
      sell_compute sha256 ctx seller model_id amount s
        = some (sellNet sha256 model_id amount s,
            sellApply sha256 seller model_id amount s) ∧
      (sellApply sha256 seller model_id amount s).balGet seller
          (sha256 model_id)
        = s.balGet seller (sha256 model_id) - amount ∧
      (sellApply sha256 seller model_id amount s).supply (sha256 model_id)
        = s.supply (sha256 model_id) - amount ∧
      (sellApply sha256 seller model_id amount s).totalSupply
        = s.totalSupply - amount ∧
      (sellApply sha256 seller model_id amount s).gasReserve
        = s.gasReserve - sellNet sha256 model_id amount s) ∧
    (¬ sellPre sha256 ctx seller model_id amount s →
      sell_compute sha256 ctx seller model_id amount s = none) := by
  constructor
  · intro hpre
    have hle : amount ≤ s.balGet seller (sha256 model_id) :=
      hpre.2.2.2.2.1
    refine ⟨by rw [sell_eq, if_pos ⟨hpre, hgas⟩], ?_, ?_, rfl, rfl⟩
    · show ((sellApply sha256 seller model_id amount s).balance
        (seller, sha256 model_id)).getD 0 = _
      have hb : (sellApply sha256 seller model_id amount s).balance
          (seller, sha256 model_id)
          = if 0 < s.balGet seller (sha256 model_id) - amount
            then some (s.balGet seller (sha256 model_id) - amount)
            else none := by
        show Function.update s.balance (seller, sha256 model_id)
          (if 0 < s.balGet seller (sha256 model_id) - amount
           then some (s.balGet seller (sha256 model_id) - amount)
           else none) (seller, sha256 model_id) = _
        rw [Function.update_same]
      rw [hb]
      split_ifs with hc
      · rfl
      · simp only [Option.getD_none]
        omega
    · show Function.update s.supply (sha256 model_id)
        (s.supply (sha256 model_id) - amount) (sha256 model_id) = _
      rw [Function.update_same]
  · intro hnpre
    rw [sell_eq, if_neg fun hh => hnpre hh.1]

/-- Witness for C2: the specification's sell scenario.  With price
100000000 and 99700 units held by the seller against a reserve of 100000:
gross 99700, fee 299, payout 99401; the seller's balance key is removed and
the reserve drops to 599. -/
theorem sell_compute_correct_witness :
    sell_compute shaDemo ctxB addrB modelDemo 99700 sellDemoState
      = some (99401, sellApply shaDemo addrB modelDemo 99700 sellDemoState) ∧
    (sellApply shaDemo addrB modelDemo 99700 sellDemoState).balance
      (addrB, shaDemo modelDemo) = none ∧
    (sellApply shaDemo addrB modelDemo 99700 sellDemoState).gasReserve
      = 599 := by
  have h := (sell_compute_correct shaDemo ctxB addrB modelDemo 99700
    sellDemoState rfl).1 (by decide)
  refine ⟨?_, by decide, by decide⟩
  rw [h.1]
  have hn : sellNet shaDemo modelDemo 99700 sellDemoState = 99401 := by decide
  rw [hn]

/-- C3: buy_compute succeeds exactly under the listed preconditions (not
paused, reserve_in above 1000, positive stored price, non-dust minted
amount, well-formed buyer and model id), computing `fee = reserve_in * 3 /
1000`, `net = reserve_in - fee`, `minted = net * 10^8 / p`, in which case
it returns the minted amount and credits the buyer's balance, the asset
supply and the total supply each by the minted amount and the reserve by
the full reserve_in; otherwise it rejects with no state change. -/
theorem buy_compute_correct (sha256 : Bytes → Bytes) (ctx : Ctx)
    (buyer : Addr) (model_id : Bytes) (gas_amount : Int) (s : State) :
    (buyPre sha256 buyer model_id gas_amount s →
      buy_compute sha256 ctx buyer model_id gas_amount s
        = some (buyMinted sha256 model_id gas_amount s,
            buyApply sha256 buyer model_id gas_amount s) ∧
      (buyApply sha256 buyer model_id gas_amount s).balGet buyer
          (sha256 model_id)
        = s.balGet buyer (sha256 model_id)
          + buyMinted sha256 model_id gas_amount s ∧
      (buyApply sha256 buyer model_id gas_amount s).supply (sha256 model_id)
        = s.supply (sha256 model_id) + buyMinted sha256 model_id gas_amount s ∧
      (buyApply sha256 buyer model_id gas_amount s).totalSupply
        = s.totalSupply + buyMinted sha256 model_id gas_amount s ∧
      (buyApply sha256 buyer model_id gas_amount s).gasReserve
        = s.gasReserve + gas_amount) ∧
    (¬ buyPre sha256 buyer model_id gas_amount s →
      buy_compute sha256 ctx buyer model_id gas_amount s = none) := by
  constructor
  · intro hpre
    refine ⟨by rw [buy_eq, if_pos hpre], ?_, ?_, rfl, rfl⟩
    · show ((buyApply sha256 buyer model_id gas_amount s).balance
        (buyer, sha256 model_id)).getD 0 = _
      have hb : (buyApply sha256 buyer model_id gas_amount s).balance
          (buyer, sha256 model_id)
          = some (s.balGet buyer (sha256 model_id)
              + buyMinted sha256 model_id gas_amount s) := by
        show Function.update s.balance (buyer, sha256 model_id)
          (some (s.balGet buyer (sha256 model_id)
            + buyMinted sha256 model_id gas_amount s))
          (buyer, sha256 model_id) = _
        rw [Function.update_same]
      rw [hb]
      rfl
    · show Function.update s.supply (sha256 model_id)
        (s.supply (sha256 model_id) + buyMinted sha256 model_id gas_amount s)
        (sha256 model_id) = _
      rw [Function.update_same]
  · intro hnpre
    rw [buy_eq, if_neg hnpre]

/-- Witness for C3: the specification's buy scenario.  With price 100000000
and reserve_in 100000: fee 300, net 99700, minted 99700, and the reserve
grows by the full 100000. -/
theorem buy_compute_correct_witness :
    buy_compute shaDemo ctxB addrB modelDemo 100000 buyDemoState
      = some (99700, buyApply shaDemo addrB modelDemo 100000 buyDemoState) ∧
    (buyApply shaDemo addrB modelDemo 100000 buyDemoState).balGet addrB
      (shaDemo modelDemo) = 99700 ∧
    (buyApply shaDemo addrB modelDemo 100000 buyDemoState).gasReserve
      = 100000 := by
  have h := (buy_compute_correct shaDemo ctxB addrB modelDemo 100000
    buyDemoState).1 (by decide)
  refine ⟨?_, by decide, by decide⟩
  rw [h.1]
  have hm : buyMinted shaDemo modelDemo 100000 buyDemoState = 99700 := by
    decide
  rw [hm]

/-- C4 counterexample: the claim that every mutating operation other than
role management is rejected while paused is false for withdraw_gas and
onNEP17Payment, whose source contains no pause check: in a concrete paused
state the admin's withdraw_gas completes and changes the reserve, and a GAS
deposit notification completes and changes the reserve. -/
theorem pause_gating_counterexample :
    pausedDemoState.paused = true ∧
    withdraw_gas ctxAdmin addrB 1 pausedDemoState
      = some (true, { pausedDemoState with gasReserve := 4 }) ∧
    ({ pausedDemoState with gasReserve := 4 } : State).gasReserve
      ≠ pausedDemoState.gasReserve ∧
    onNEP17Payment ctxGas addrB 7 pausedDemoState
      = some ((), { pausedDemoState with gasReserve := 12 }) ∧
    ({ pausedDemoState with gasReserve := 12 } : State).gasReserve
      ≠ pausedDemoState.gasReserve := by
  refine ⟨rfl, ?_, by decide, ?_, by decide⟩
  · rw [withdraw_gas_eq]
    have h1 : withdrawPre ctxAdmin addrB 1 pausedDemoState ∧
        ctxAdmin.gasOk = true := by decide
    rw [if_pos h1]
    rfl
  · unfold onNEP17Payment
    rw [if_pos (show ctxGas.caller = GAS_HASH from rfl)]
    rfl

/-- C4 amended: while the paused flag is set, mint, burn, transfer,
buy_compute, sell_compute and update_price_oracle are all rejected with no
state change (the transaction faults); withdraw_gas and onNEP17Payment,
however, carry no pause check in the source and are not gated. -/
theorem paused_rejects_mutations (sha256 : Bytes → Bytes) (ctx : Ctx)
    (to_addr owner from_addr to2 buyer seller : Addr)
    (model_id token_id : Bytes) (amount quality bamount tamount gas_amount
      samount price_gas : Int) (s : State) (hp : s.paused = true) :
    mint sha256 ctx to_addr model_id amount quality s = none ∧
    burn ctx owner token_id bamount s = none ∧
    transfer ctx from_addr to2 tamount token_id s = none ∧
    buy_compute sha256 ctx buyer model_id gas_amount s = none ∧
    sell_compute sha256 ctx seller model_id samount s = none ∧
    update_price_oracle sha256 ctx model_id price_gas s = none := by
  have hne : ¬ s.paused = false := by rw [hp]; simp
  refine ⟨?_, ?_, ?_, ?_, ?_, ?_⟩
  · rw [mint_eq]
    exact if_neg fun hpre => hne hpre.1
  · rw [burn_eq]
    exact if_neg fun hpre => hne hpre.1
  · rw [transfer_eq]
    exact if_neg fun hpre => hne hpre.2.2.1
  · rw [buy_eq]
    exact if_neg fun hpre => hne hpre.1
  · rw [sell_eq]
    exact if_neg fun hpre => hne hpre.1.1
  · unfold update_price_oracle
    exact if_neg hne

/-- Witness for the amended C4 at a concrete paused state. -/
theorem paused_rejects_mutations_witness :
    mint shaDemo ctxAdmin addrB modelDemo 100 80 pausedDemoState = none ∧
    burn ctxB addrB tokenDemo 10 pausedDemoState = none ∧
    transfer ctxB addrB addrC 10 tokenDemo pausedDemoState = none ∧
    buy_compute shaDemo ctxB addrB modelDemo 5000 pausedDemoState = none ∧
    sell_compute shaDemo ctxB addrB modelDemo 5000 pausedDemoState = none ∧
    update_price_oracle shaDemo ctxAdmin modelDemo 7 pausedDemoState
      = none :=
  paused_rejects_mutations shaDemo ctxAdmin addrB addrB addrB addrC addrB
    addrB modelDemo tokenDemo 100 80 10 10 5000 5000 7 pausedDemoState rfl

/-- C5: if the external reserve-asset transfer reports failure during
sell_compute or withdraw_gas, the whole invocation is rejected (`none`):
the transaction faults and every one of its storage writes - seller or
owner balance, asset supply, total supply, reserve - is discarded, so the
state visible afterwards is exactly the state before the call. -/
theorem external_transfer_failure_atomic (sha256 : Bytes → Bytes)
    (ctx : Ctx) (seller to_addr : Addr) (model_id : Bytes)
    (amount wamount : Int) (s : State) (hgas : ctx.gasOk = false) :
    sell_compute sha256 ctx seller model_id amount s = none ∧
    withdraw_gas ctx to_addr wamount s = none := by
  constructor
  · rw [sell_eq]
    refine if_neg fun hh => ?_
    rw [hgas] at hh
    exact absurd hh.2 (by simp)
  · rw [withdraw_gas_eq]
    refine if_neg fun hh => ?_
    rw [hgas] at hh
    exact absurd hh.2 (by simp)

/-- Witness for C5: with a failing external transfer, the sell scenario and
an admin withdrawal both reject. -/
theorem external_transfer_failure_atomic_witness :
    sell_compute shaDemo ctxFail addrB modelDemo 99700 sellDemoState
      = none ∧
    withdraw_gas ctxFail addrA 1 sellDemoState = none :=
  external_transfer_failure_atomic shaDemo ctxFail addrB addrA modelDemo
    99700 1 sellDemoState rfl

/-- C6 counterexample: the claim quantifies over every two addresses, but a
self-transfer (A = B) of a positive amount succeeds and leaves the sender's
balance unchanged instead of strictly decreasing it by the amount. -/
theorem transfer_conservation_counterexample :
    transfer ctxB addrB addrB 2000 tokenDemo sellDemoState
      = some (true, transferApply addrB addrB 2000 tokenDemo sellDemoState) ∧
    (transferApply addrB addrB 2000 tokenDemo sellDemoState).balGet addrB
      tokenDemo = sellDemoState.balGet addrB tokenDemo ∧
    ¬ (transferApply addrB addrB 2000 tokenDemo sellDemoState).balGet addrB
      tokenDemo = sellDemoState.balGet addrB tokenDemo - 2000 := by
  refine ⟨transfer_demo_self, by decide, by decide⟩

lemma transferApply_balGet_ne {s : State} {a b : Addr} (hab : a ≠ b)
    (amount : Int) (t : Bytes) (hle : amount ≤ s.balGet a t) :
    (transferApply a b amount t s).balGet a t = s.balGet a t - amount ∧
    (transferApply a b amount t s).balGet b t = s.balGet b t + amount := by
  constructor
  · show ((transferApply a b amount t s).balance (a, t)).getD 0 = _
    rw [transferApply_balance_ne amount t hab, update_bal_ne_owner _ hab t,
      Function.update_same]
    split_ifs with hc
    · rfl
    · simp only [Option.getD_none]
      omega
  · show ((transferApply a b amount t s).balance (b, t)).getD 0 = _
    rw [transferApply_balance_ne amount t hab, Function.update_same]
    rfl

/-- C6 amended: a successful transfer between two distinct addresses A and B
conserves `balance(A) + balance(B)` for the asset, strictly decreases A's
balance by the amount, strictly increases B's balance by the amount, and
leaves every asset supply and the total supply unchanged (for A = B a
successful self-transfer leaves the balance unchanged). -/
theorem transfer_conservation (ctx : Ctx) (a b : Addr) (amount : Int)
    (t : Bytes) (s s' : State) (hab : a ≠ b)
    (h : transfer ctx a b amount t s = some (true, s')) :
    s'.balGet a t + s'.balGet b t = s.balGet a t + s.balGet b t ∧
    s'.balGet a t = s.balGet a t - amount ∧
    s'.balGet b t = s.balGet b t + amount ∧
    s'.balGet a t < s.balGet a t ∧
    s.balGet b t < s'.balGet b t ∧
    s'.supply = s.supply ∧
    s'.totalSupply = s.totalSupply := by
  rw [transfer_eq] at h
  split_ifs at h with h1 h2 h3
  · simp at h
  · simp only [Option.some.injEq, Prod.mk.injEq, true_and] at h
    subst h
    have hamt : 0 < amount := h1.2.1
    have hle : amount ≤ s.balGet a t := not_lt.mp h2
    obtain ⟨ha, hb⟩ := transferApply_balGet_ne hab amount t hle
    refine ⟨by omega, ha, hb, by omega, by omega, rfl, rfl⟩

/-- Witness for the amended C6: the concrete transfer of 2000 units from
addrB to addrC out of a balance of 99700. -/
theorem transfer_conservation_witness :
    (transferApply addrB addrC 2000 tokenDemo sellDemoState).balGet addrB
        tokenDemo
      + (transferApply addrB addrC 2000 tokenDemo sellDemoState).balGet addrC
        tokenDemo
      = sellDemoState.balGet addrB tokenDemo
        + sellDemoState.balGet addrC tokenDemo ∧
    (transferApply addrB addrC 2000 tokenDemo sellDemoState).balGet addrB
      tokenDemo = sellDemoState.balGet addrB tokenDemo - 2000 ∧
    (transferApply addrB addrC 2000 tokenDemo sellDemoState).balGet addrC
      tokenDemo = sellDemoState.balGet addrC tokenDemo + 2000 ∧
    (transferApply addrB addrC 2000 tokenDemo sellDemoState).balGet addrB
      tokenDemo < sellDemoState.balGet addrB tokenDemo ∧
    sellDemoState.balGet addrC tokenDemo
      < (transferApply addrB addrC 2000 tokenDemo sellDemoState).balGet addrC
        tokenDemo ∧
    (transferApply addrB addrC 2000 tokenDemo sellDemoState).supply
      = sellDemoState.supply ∧
    (transferApply addrB addrC 2000 tokenDemo sellDemoState).totalSupply
      = sellDemoState.totalSupply :=
  transfer_conservation ctxB addrB addrC 2000 tokenDemo sellDemoState
    (transferApply addrB addrC 2000 tokenDemo sellDemoState) (by decide)
    transfer_demo_bc

end ChattenToken
